import Mathlib

/-! Scope-exit guard `Defer` (defer.hpp)

A shallow embedding of `defer.hpp`: the `DeferMode` enumeration, the `Defer`
class (constructor, destructor, move constructor), the `MakeDeferObj` builder
and the `DEFER*` macros, together with the fragment of the C++ execution model
the header relies on (the per-thread count `std::uncaught_exceptions()`, the
destruction of automatic objects at the end of a block, `throw` and `catch`).

Everything the guarded program can observe or change is a value of an
arbitrary type `σ`; a callable of type `void()` is a function `σ → σ`.
-/

namespace DeferHpp

/-! ## Execution model -/

/-- State of the executing thread.
* `world` is everything a callable can read or write;
* `uncaught` is the value `std::uncaught_exceptions()` returns (a count, never
  negative);
* `calls` is a ghost trace of the callables that were invoked through a
  `std::function<void()>`, oldest first. -/
structure Thread (σ : Type) where
  world : σ
  uncaught : Nat
  calls : List (σ → σ)

/-- Target of a `std::function<void()>`: the wrapper is either empty or holds a
callable. -/
inductive StdFunction (σ : Type) where
  | empty : StdFunction σ
  | target (f : σ → σ) : StdFunction σ

/-- One call `f()` of a callable: its effect on the world, recorded in the
trace. -/
def invoke {σ : Type} (f : σ → σ) (t : Thread σ) : Thread σ :=
  { t with world := f t.world, calls := t.calls ++ [f] }

/-! ## defer.hpp -/

/-- The enumeration `enum class DeferMode`. -/
inductive DeferMode where
  | Always
  | OnFailure
  | OnSuccess
  deriving DecidableEq, Repr

/-- Data members of `class Defer`: `_mode`, `_fn`, `_active`. -/
structure Defer (σ : Type) where
  _mode : DeferMode
  _fn : StdFunction σ
  _active : Bool

/-- Constructor `Defer(DeferMode mode, F&& fn)`: the three member initialisers,
empty body. Nothing is called. -/
def Defer.ctor {σ : Type} (mode : DeferMode) (fn : StdFunction σ) (t : Thread σ) :
    Defer σ × Thread σ :=
  ({ _mode := mode, _fn := fn, _active := true }, t)

/-- Body of the destructor `~Defer()`. The result is the object as the body
leaves it and the thread state afterwards; `none` is `std::terminate`, reached
when the call `_fn()` of an empty `std::function` throws
`std::bad_function_call` out of the (implicitly `noexcept`) destructor. -/
def Defer.dtor {σ : Type} (self : Defer σ) (t : Thread σ) : Option (Defer σ × Thread σ) :=
  if !self._active then some (self, t)
  else
    let bException : Bool := decide (t.uncaught > 0)
    if (self._mode == DeferMode.Always) ||
        (self._mode == DeferMode.OnFailure && bException) ||
        (self._mode == DeferMode.OnSuccess && !bException) then
      match self._fn with
      | StdFunction.target f => some (self, invoke f t)
      | StdFunction.empty => none
    else some (self, t)

/-- Move constructor `Defer(Defer&& other) noexcept`. Returns the new object
and `other` as it is left behind. `std::move` of the enumeration copies it;
the moved-from `std::function` is left in a valid but unspecified state, which
is the argument `residue`; the body clears `other._active`. -/
def Defer.moveCtor {σ : Type} (other : Defer σ) (residue : StdFunction σ) :
    Defer σ × Defer σ :=
  ({ _mode := other._mode, _fn := other._fn, _active := other._active },
   { _mode := other._mode, _fn := residue, _active := false })

/-- The builder `struct MakeDeferObj`; its constructor
`MakeDeferObj(DeferMode m = DeferMode::Always)` stores `m`. -/
structure MakeDeferObj where
  mode : DeferMode := DeferMode.Always

/-- The member `operator+=` of `MakeDeferObj`: `return Defer<F>(mode, fn)`. -/
def MakeDeferObj.opAddAssign {σ : Type} (self : MakeDeferObj) (fn : StdFunction σ)
    (t : Thread σ) : Defer σ × Thread σ :=
  Defer.ctor self.mode fn t

/-- Macro `DEFER`, applied to the lambda that follows it:
`auto defer_N = MakeDeferObj{} += [&]() ...`. -/
def DEFER {σ : Type} (lambda : σ → σ) (t : Thread σ) : Defer σ × Thread σ :=
  MakeDeferObj.opAddAssign {} (StdFunction.target lambda) t

/-- Macro `DEFER_ON_FAILURE`:
`auto deferFailure_N = MakeDeferObj{DeferMode::OnFailure} += [&]() ...`. -/
def DEFER_ON_FAILURE {σ : Type} (lambda : σ → σ) (t : Thread σ) : Defer σ × Thread σ :=
  MakeDeferObj.opAddAssign (MakeDeferObj.mk DeferMode.OnFailure) (StdFunction.target lambda) t

/-- Macro `DEFER_ON_SUCCESS`:
`auto deferSuccess_N = MakeDeferObj{DeferMode::OnSuccess} += [&]() ...`. -/
def DEFER_ON_SUCCESS {σ : Type} (lambda : σ → σ) (t : Thread σ) : Defer σ × Thread σ :=
  MakeDeferObj.opAddAssign (MakeDeferObj.mk DeferMode.OnSuccess) (StdFunction.target lambda) t

/-- Macro `defer`, an alias of `DEFER`. -/
def defer {σ : Type} (lambda : σ → σ) (t : Thread σ) : Defer σ × Thread σ :=
  DEFER lambda t

/-- Macro `defer_on_failure`, an alias of `DEFER_ON_FAILURE`. -/
def defer_on_failure {σ : Type} (lambda : σ → σ) (t : Thread σ) : Defer σ × Thread σ :=
  DEFER_ON_FAILURE lambda t

/-- Macro `defer_on_success`, an alias of `DEFER_ON_SUCCESS`. -/
def defer_on_success {σ : Type} (lambda : σ → σ) (t : Thread σ) : Defer σ × Thread σ :=
  DEFER_ON_SUCCESS lambda t

/-! ## Blocks, as used in tests.cpp

Each test is `try { <guard declaration>; <statements>; [throw e;] } catch (...) { ... }`.
-/

/-- How the statements of a block end: control falls off the end, or a
`throw` expression raises `e`. -/
inductive Completion (ε : Type) where
  | normal : Completion ε
  | throws (e : ε) : Completion ε

/-- A block: guard declarations in textual order, the statements after them,
and the way the block is left. -/
structure Block (σ ε : Type) where
  decls : List (Thread σ → Defer σ × Thread σ)
  body : σ → σ
  ending : Completion ε

/-- Run the declarations of a block in order; the result lists the guards in
order of construction. -/
def declare {σ : Type} : List (Thread σ → Defer σ × Thread σ) → Thread σ →
    List (Defer σ) × Thread σ
  | [], t => ([], t)
  | d :: ds, t =>
    let r := d t
    let rs := declare ds r.2
    (r.1 :: rs.1, rs.2)

/-- Destroy the automatic objects of a block, given in order of construction:
the destructors run in the reverse order. -/
def destroyLocals {σ : Type} : List (Defer σ) → Thread σ → Option (Thread σ)
  | [], t => some t
  | g :: later, t =>
    match destroyLocals later t with
    | none => none
    | some t1 => (Defer.dtor g t1).map Prod.snd

/-- Execute a block. On a normal exit the locals are destroyed with the
uncaught-exception count as it is; a `throw` first raises the count by one
(the exception is in flight until a handler is entered) and the locals are
destroyed by stack unwinding; the exception keeps propagating. -/
def runBlock {σ ε : Type} (b : Block σ ε) (t : Thread σ) :
    Option (Thread σ × Completion ε) :=
  let r := declare b.decls t
  let t1 : Thread σ := { r.2 with world := b.body r.2.world }
  match b.ending with
  | Completion.normal => (destroyLocals r.1 t1).map (fun t2 => (t2, Completion.normal))
  | Completion.throws e =>
    (destroyLocals r.1 { t1 with uncaught := t1.uncaught + 1 }).map
      (fun t2 => (t2, Completion.throws e))

/-- The statement `try block catch (...) { handler }`: when the block throws,
entering the handler ends the flight of the exception (the count drops by
one) and the handler's statements run. -/
def tryCatch {σ ε : Type} (b : Block σ ε) (handler : σ → σ) (t : Thread σ) :
    Option (Thread σ) :=
  match runBlock b t with
  | none => none
  | some (t1, Completion.normal) => some t1
  | some (t1, Completion.throws _) =>
    some { t1 with world := handler t1.world, uncaught := t1.uncaught - 1 }

/-- The uncaught-exception count a destructor reads while the locals of a
block entered with count `n` are destroyed: `n` on a normal exit, `n + 1`
when the block is left by a thrown exception. -/
def countAtExit {ε : Type} (ending : Completion ε) (n : Nat) : Nat :=
  match ending with
  | Completion.normal => n
  | Completion.throws _ => n + 1

/-! ## Families of guards related by moves -/

/-- One move construction inside a family of guards: the object at position
`i` is moved from (it stays in the family, as the move leaves it) and the
newly constructed object joins the family at the end. A position outside the
family names no object and nothing happens. -/
def moveStep {σ : Type} (fam : List (Defer σ)) (i : Nat) (residue : StdFunction σ) :
    List (Defer σ) :=
  match fam[i]? with
  | none => fam
  | some g => fam.set i (Defer.moveCtor g residue).2 ++ [(Defer.moveCtor g residue).1]

/-- A finite sequence of move constructions, each given by the position of its
source and by what the moved-from `std::function` is left holding. -/
def moves {σ : Type} : List (Defer σ) → List (Nat × StdFunction σ) → List (Defer σ)
  | fam, [] => fam
  | fam, m :: ms => moves (moveStep fam m.1 m.2) ms

/-- Destroy the listed objects one after the other, each at a moment when
`std::uncaught_exceptions()` returns the count paired with it. -/
def destroyEach {σ : Type} : List (Defer σ × Nat) → Thread σ → Option (Thread σ)
  | [], t => some t
  | gn :: rest, t =>
    match Defer.dtor gn.1 { t with uncaught := gn.2 } with
    | none => none
    | some r => destroyEach rest r.2

/-! ## Concrete inputs used by the closed examples below -/

/-- An action on a counter: double it. -/
def twice : Nat → Nat := fun n => 2 * n

/-- Three moves in a family that starts with one guard: from the original,
from the object that move made, and from the original again (by then already
moved from). -/
def threeMoves : List (Nat × StdFunction Nat) :=
  [(0, StdFunction.empty), (1, StdFunction.empty), (0, StdFunction.target twice)]

/-- An action on a counter: add one. -/
def tick : Nat → Nat := fun n => n + 1

/-- A thread with no exception in flight and an empty trace. -/
def calmThread : Thread Nat := { world := 0, uncaught := 0, calls := [] }

/-- A thread on which one exception is already in flight (the code that runs
is a destructor called by stack unwinding) and the trace is empty. -/
def unwindingThread : Thread Nat := { world := 0, uncaught := 1, calls := [] }

/-- An armed `Always` guard holding `tick`. -/
def alwaysTick : Defer Nat :=
  { _mode := DeferMode.Always, _fn := StdFunction.target tick, _active := true }

/-- A block that declares one `OnSuccess` guard holding `tick`, does nothing
else and is left normally. -/
def successBlock : Block Nat Unit :=
  { decls := [DEFER_ON_SUCCESS tick], body := id, ending := Completion.normal }

/-- A block that declares one `OnFailure` guard holding `tick`, does nothing
else and is left normally. -/
def failureBlock : Block Nat Unit :=
  { decls := [DEFER_ON_FAILURE tick], body := id, ending := Completion.normal }

/-- The objects of the family that `threeMoves` makes from one `Always` guard
holding `tick`, last constructed first, each paired with the count in force
when it is destroyed. -/
def lastFirst : List (Defer Nat × Nat) :=
  (moves [(Defer.ctor DeferMode.Always (StdFunction.target tick) calmThread).1]
    threeMoves).reverse.zip [1, 0, 2, 0]

/-- A block that declares two `OnSuccess` guards, the first holding `tick`
and the second `twice`, sets the counter to 5 and is left normally. -/
def twoSuccessBlock : Block Nat Unit :=
  { decls := [DEFER_ON_SUCCESS tick, DEFER_ON_SUCCESS twice], body := fun _ => 5,
    ending := Completion.normal }

/-- What the closed examples observe of a thread: the world and the number of
calls made so far. -/
def observe (t : Thread Nat) : Nat × Nat := (t.world, t.calls.length)

/-! ## The firing decision -/

/-- One run of the destructor body has one of three outcomes: `std::terminate`
before any call, no call, or one call of the stored target. -/
theorem dtor_trichotomy {σ : Type} (g : Defer σ) (t : Thread σ) :
    Defer.dtor g t = none ∨ Defer.dtor g t = some (g, t) ∨
    ∃ f, g._fn = StdFunction.target f ∧ Defer.dtor g t = some (g, invoke f t) := by
  obtain ⟨m, fn, a⟩ := g
  cases a <;> cases m <;> cases fn <;> by_cases h : t.uncaught > 0 <;> simp [Defer.dtor, h]

/-- C1: for every policy `p`, armed flag `a`, stored action `f` and thread
state `t` (so for both values of `std::uncaught_exceptions() > 0`), the
destructor returns normally and invokes `f` exactly when `a` is true and
(`p = Always`, or `p = OnFailure` and the count is positive, or
`p = OnSuccess` and the count is not positive): in that case the trace grows
by the single entry `f`, otherwise the thread state is untouched. A disarmed
guard leaves the thread state untouched for every policy, every stored
callable and every count. -/
theorem C1_dtor_firing_decision {σ : Type} (p : DeferMode) (a : Bool) (f : σ → σ)
    (t : Thread σ) :
    (Defer.dtor { _mode := p, _fn := StdFunction.target f, _active := a } t =
      some ({ _mode := p, _fn := StdFunction.target f, _active := a },
        if a = true ∧ (p = DeferMode.Always ∨ (p = DeferMode.OnFailure ∧ t.uncaught > 0) ∨
            (p = DeferMode.OnSuccess ∧ ¬ t.uncaught > 0))
        then invoke f t else t)) ∧
    (invoke f t).calls = t.calls ++ [f] ∧
    (invoke f t).calls.length = t.calls.length + 1 ∧
    (∀ (fn : StdFunction σ) (s : Thread σ),
      Defer.dtor { _mode := p, _fn := fn, _active := false } s =
        some ({ _mode := p, _fn := fn, _active := false }, s)) := by
  refine ⟨?_, rfl, by simp [invoke], fun fn s => by simp [Defer.dtor]⟩
  cases a <;> cases p <;> by_cases h : t.uncaught > 0 <;> simp [Defer.dtor, h]

/-! ## The three policies at the end of a block -/

/-- C2: for every action `f`, a block that declares one guard with the
`Always` policy (by the constructor, by `MakeDeferObj{} += f`, by `DEFER` or by
`defer`) invokes `f` exactly once when it is left normally and exactly once
when it is left by a thrown exception: the trace grows by the single entry
`f`, whatever the statements of the block and the count at entry are. -/
theorem C2_always_fires_on_both_exits {σ ε : Type} (f : σ → σ) (body : σ → σ) (e : ε)
    (w : σ) (n : Nat) (cs : List (σ → σ)) :
    (runBlock { decls := [Defer.ctor DeferMode.Always (StdFunction.target f)],
                body := body, ending := (Completion.normal : Completion ε) }
        { world := w, uncaught := n, calls := cs } =
      some ({ world := f (body w), uncaught := n, calls := cs ++ [f] }, Completion.normal)) ∧
    (runBlock { decls := [Defer.ctor DeferMode.Always (StdFunction.target f)],
                body := body, ending := Completion.throws e }
        { world := w, uncaught := n, calls := cs } =
      some ({ world := f (body w), uncaught := n + 1, calls := cs ++ [f] },
        Completion.throws e)) ∧
    (runBlock { decls := [MakeDeferObj.opAddAssign {} (StdFunction.target f)],
                body := body, ending := (Completion.normal : Completion ε) }
        { world := w, uncaught := n, calls := cs } =
      some ({ world := f (body w), uncaught := n, calls := cs ++ [f] }, Completion.normal)) ∧
    (runBlock { decls := [MakeDeferObj.opAddAssign {} (StdFunction.target f)],
                body := body, ending := Completion.throws e }
        { world := w, uncaught := n, calls := cs } =
      some ({ world := f (body w), uncaught := n + 1, calls := cs ++ [f] },
        Completion.throws e)) ∧
    (runBlock { decls := [DEFER f], body := body,
                ending := (Completion.normal : Completion ε) }
        { world := w, uncaught := n, calls := cs } =
      some ({ world := f (body w), uncaught := n, calls := cs ++ [f] }, Completion.normal)) ∧
    (runBlock { decls := [DEFER f], body := body, ending := Completion.throws e }
        { world := w, uncaught := n, calls := cs } =
      some ({ world := f (body w), uncaught := n + 1, calls := cs ++ [f] },
        Completion.throws e)) ∧
    (runBlock { decls := [defer f], body := body,
                ending := (Completion.normal : Completion ε) }
        { world := w, uncaught := n, calls := cs } =
      some ({ world := f (body w), uncaught := n, calls := cs ++ [f] }, Completion.normal)) ∧
    (runBlock { decls := [defer f], body := body, ending := Completion.throws e }
        { world := w, uncaught := n, calls := cs } =
      some ({ world := f (body w), uncaught := n + 1, calls := cs ++ [f] },
        Completion.throws e)) := by
  simp [runBlock, declare, destroyLocals, Defer.dtor, Defer.ctor, MakeDeferObj.opAddAssign,
    DEFER, defer, invoke]

/-- C3: for every action `f`, a block entered with no exception in flight
that declares one guard with the `OnFailure` policy (by the constructor, by
`DEFER_ON_FAILURE` or by `defer_on_failure`) does not invoke `f` when it is
left normally (the trace and the world are what the statements left), and
invokes `f` exactly once when it is left by a thrown exception. -/
theorem C3_on_failure_fires_only_on_throw {σ ε : Type} (f : σ → σ) (body : σ → σ) (e : ε)
    (w : σ) (cs : List (σ → σ)) :
    (runBlock { decls := [Defer.ctor DeferMode.OnFailure (StdFunction.target f)],
                body := body, ending := (Completion.normal : Completion ε) }
        { world := w, uncaught := 0, calls := cs } =
      some ({ world := body w, uncaught := 0, calls := cs }, Completion.normal)) ∧
    (runBlock { decls := [Defer.ctor DeferMode.OnFailure (StdFunction.target f)],
                body := body, ending := Completion.throws e }
        { world := w, uncaught := 0, calls := cs } =
      some ({ world := f (body w), uncaught := 1, calls := cs ++ [f] },
        Completion.throws e)) ∧
    (runBlock { decls := [DEFER_ON_FAILURE f], body := body,
                ending := (Completion.normal : Completion ε) }
        { world := w, uncaught := 0, calls := cs } =
      some ({ world := body w, uncaught := 0, calls := cs }, Completion.normal)) ∧
    (runBlock { decls := [DEFER_ON_FAILURE f], body := body, ending := Completion.throws e }
        { world := w, uncaught := 0, calls := cs } =
      some ({ world := f (body w), uncaught := 1, calls := cs ++ [f] },
        Completion.throws e)) ∧
    (runBlock { decls := [defer_on_failure f], body := body,
                ending := (Completion.normal : Completion ε) }
        { world := w, uncaught := 0, calls := cs } =
      some ({ world := body w, uncaught := 0, calls := cs }, Completion.normal)) ∧
    (runBlock { decls := [defer_on_failure f], body := body, ending := Completion.throws e }
        { world := w, uncaught := 0, calls := cs } =
      some ({ world := f (body w), uncaught := 1, calls := cs ++ [f] },
        Completion.throws e)) := by
  simp [runBlock, declare, destroyLocals, Defer.dtor, Defer.ctor, MakeDeferObj.opAddAssign,
    DEFER_ON_FAILURE, defer_on_failure, invoke]

/-- C4: for every action `f`, a block entered with no exception in flight
that declares one guard with the `OnSuccess` policy (by the constructor, by
`DEFER_ON_SUCCESS` or by `defer_on_success`) invokes `f` exactly once when it
is left normally, and does not invoke `f` when it is left by a thrown
exception (the trace and the world are what the statements left). -/
theorem C4_on_success_fires_only_on_normal_exit {σ ε : Type} (f : σ → σ) (body : σ → σ)
    (e : ε) (w : σ) (cs : List (σ → σ)) :
    (runBlock { decls := [Defer.ctor DeferMode.OnSuccess (StdFunction.target f)],
                body := body, ending := (Completion.normal : Completion ε) }
        { world := w, uncaught := 0, calls := cs } =
      some ({ world := f (body w), uncaught := 0, calls := cs ++ [f] },
        Completion.normal)) ∧
    (runBlock { decls := [Defer.ctor DeferMode.OnSuccess (StdFunction.target f)],
                body := body, ending := Completion.throws e }
        { world := w, uncaught := 0, calls := cs } =
      some ({ world := body w, uncaught := 1, calls := cs }, Completion.throws e)) ∧
    (runBlock { decls := [DEFER_ON_SUCCESS f], body := body,
                ending := (Completion.normal : Completion ε) }
        { world := w, uncaught := 0, calls := cs } =
      some ({ world := f (body w), uncaught := 0, calls := cs ++ [f] },
        Completion.normal)) ∧
    (runBlock { decls := [DEFER_ON_SUCCESS f], body := body, ending := Completion.throws e }
        { world := w, uncaught := 0, calls := cs } =
      some ({ world := body w, uncaught := 1, calls := cs }, Completion.throws e)) ∧
    (runBlock { decls := [defer_on_success f], body := body,
                ending := (Completion.normal : Completion ε) }
        { world := w, uncaught := 0, calls := cs } =
      some ({ world := f (body w), uncaught := 0, calls := cs ++ [f] },
        Completion.normal)) ∧
    (runBlock { decls := [defer_on_success f], body := body, ending := Completion.throws e }
        { world := w, uncaught := 0, calls := cs } =
      some ({ world := body w, uncaught := 1, calls := cs }, Completion.throws e)) := by
  simp [runBlock, declare, destroyLocals, Defer.dtor, Defer.ctor, MakeDeferObj.opAddAssign,
    DEFER_ON_SUCCESS, defer_on_success, invoke]

/-! ## The failure flag is the absolute count, not the count relative to the scope -/

/-- C5, counterexample: on a thread with one exception already in flight, a
block that declares an `OnSuccess` guard and is left normally does not invoke
the action (world 0, no call), and the same block with an `OnFailure` guard
does invoke it (world 1, one call), although neither block is left by an
exception. -/
theorem C5_counterexample_nested_unwinding :
    (runBlock successBlock unwindingThread).map (fun r => observe r.1) = some (0, 0) ∧
    (runBlock failureBlock unwindingThread).map (fun r => observe r.1) = some (1, 1) := by
  constructor <;> rfl

/-- C5, amended: the failure flag read by the destructor is
`std::uncaught_exceptions() > 0` at destruction, whatever the count `n` was at
construction. For a block entered with count `n` and any action `f`:
left normally, an `OnSuccess` guard fires iff `n = 0` and an `OnFailure` guard
fires iff `n ≠ 0`; left by a thrown exception, an `OnFailure` guard fires and
an `OnSuccess` guard does not, for every `n`. -/
theorem C5_failure_flag_is_absolute {σ ε : Type} (f : σ → σ) (body : σ → σ) (e : ε)
    (w : σ) (n : Nat) (cs : List (σ → σ)) :
    (runBlock { decls := [Defer.ctor DeferMode.OnSuccess (StdFunction.target f)],
                body := body, ending := (Completion.normal : Completion ε) }
        { world := w, uncaught := n, calls := cs } =
      some (if n = 0 then { world := f (body w), uncaught := n, calls := cs ++ [f] }
            else { world := body w, uncaught := n, calls := cs }, Completion.normal)) ∧
    (runBlock { decls := [Defer.ctor DeferMode.OnFailure (StdFunction.target f)],
                body := body, ending := (Completion.normal : Completion ε) }
        { world := w, uncaught := n, calls := cs } =
      some (if n = 0 then { world := body w, uncaught := n, calls := cs }
            else { world := f (body w), uncaught := n, calls := cs ++ [f] },
        Completion.normal)) ∧
    (runBlock { decls := [Defer.ctor DeferMode.OnSuccess (StdFunction.target f)],
                body := body, ending := Completion.throws e }
        { world := w, uncaught := n, calls := cs } =
      some ({ world := body w, uncaught := n + 1, calls := cs }, Completion.throws e)) ∧
    (runBlock { decls := [Defer.ctor DeferMode.OnFailure (StdFunction.target f)],
                body := body, ending := Completion.throws e }
        { world := w, uncaught := n, calls := cs } =
      some ({ world := f (body w), uncaught := n + 1, calls := cs ++ [f] },
        Completion.throws e)) := by
  rcases Nat.eq_zero_or_pos n with h | h
  · subst h
    simp [runBlock, declare, destroyLocals, Defer.dtor, Defer.ctor, invoke]
  · have h0 : n ≠ 0 := Nat.pos_iff_ne_zero.mp h
    simp [runBlock, declare, destroyLocals, Defer.dtor, Defer.ctor, invoke, h, h0]

/-! ## Move construction -/

/-- C6: for every guard `g` (any policy, armed flag and stored callable) and
whatever the moved-from `std::function` is left holding, after move
construction the source is disarmed and its destructor leaves every thread
state untouched (for both values of the failure flag), while the destructor
of the destination either ends in `std::terminate` without a call, or leaves
the thread untouched, or invokes the stored action of `g` exactly once. -/
theorem C6_move_disarms_source {σ : Type} (g : Defer σ) (residue : StdFunction σ) :
    (Defer.moveCtor g residue).2._active = false ∧
    (∀ t : Thread σ,
      Defer.dtor (Defer.moveCtor g residue).2 t = some ((Defer.moveCtor g residue).2, t)) ∧
    (∀ t : Thread σ,
      Defer.dtor (Defer.moveCtor g residue).1 t = none ∨
      Defer.dtor (Defer.moveCtor g residue).1 t = some ((Defer.moveCtor g residue).1, t) ∨
      ∃ f, g._fn = StdFunction.target f ∧
        Defer.dtor (Defer.moveCtor g residue).1 t =
          some ((Defer.moveCtor g residue).1, invoke f t)) := by
  exact ⟨rfl, fun t => by simp [Defer.dtor, Defer.moveCtor],
    fun t => dtor_trichotomy (Defer.moveCtor g residue).1 t⟩

/-- C7: for every guard `g`, the destination of a move from `g` has the
policy, the stored callable and the armed flag `g` had before the move (it is
equal to the unmoved `g`), so on every thread state its destructor does what
the destructor of the unmoved `g` would have done. -/
theorem C7_move_preserves_behaviour {σ : Type} (g : Defer σ) (residue : StdFunction σ)
    (t : Thread σ) :
    (Defer.moveCtor g residue).1._mode = g._mode ∧
    (Defer.moveCtor g residue).1._fn = g._fn ∧
    (Defer.moveCtor g residue).1._active = g._active ∧
    (Defer.moveCtor g residue).1 = g ∧
    Defer.dtor (Defer.moveCtor g residue).1 t = Defer.dtor g t :=
  ⟨rfl, rfl, rfl, rfl, rfl⟩

/-! ## Single firing -/

/-- C8: for every guard (any policy, armed flag and stored callable) and every
thread state, one run of the destructor either ends in `std::terminate`
without a call, or makes no call, or makes exactly one call, of the stored
action: the trace is unchanged or longer by that one entry. For every policy,
every action `f` and both ways of leaving a block, the lifetime of a guard
declared in the block (construction, the statements, destruction at the exit)
leaves the trace unchanged or longer by the single entry `f`, construction
itself leaving the thread state as it was. -/
theorem C8_fires_at_most_once {σ ε : Type} (g : Defer σ) (p : DeferMode) (f : σ → σ)
    (body : σ → σ) (ending : Completion ε) (t : Thread σ) :
    (Defer.dtor g t = none ∨ Defer.dtor g t = some (g, t) ∨
      ∃ k, g._fn = StdFunction.target k ∧ Defer.dtor g t = some (g, invoke k t)) ∧
    ((Defer.dtor g t).map (fun r => r.2.calls) = none ∨
      (Defer.dtor g t).map (fun r => r.2.calls) = some t.calls ∨
      ∃ k, g._fn = StdFunction.target k ∧
        (Defer.dtor g t).map (fun r => r.2.calls) = some (t.calls ++ [k])) ∧
    (Defer.ctor p (StdFunction.target f) t).2 = t ∧
    ((runBlock { decls := [Defer.ctor p (StdFunction.target f)], body := body,
                 ending := ending } t).map (fun r => r.1.calls) = some t.calls ∨
      (runBlock { decls := [Defer.ctor p (StdFunction.target f)], body := body,
                  ending := ending } t).map (fun r => r.1.calls) = some (t.calls ++ [f])) := by
  refine ⟨dtor_trichotomy g t, ?_, rfl, ?_⟩
  · rcases dtor_trichotomy g t with h | h | ⟨k, hk, h⟩
    · exact Or.inl (by rw [h]; rfl)
    · exact Or.inr (Or.inl (by rw [h]; rfl))
    · exact Or.inr (Or.inr ⟨k, hk, by rw [h]; rfl⟩)
  · cases ending <;> cases p <;> by_cases h : t.uncaught > 0 <;>
      simp [runBlock, declare, destroyLocals, Defer.dtor, Defer.ctor, invoke, h]

/-! ## The destructor body does not mark the guard spent -/

/-- C9, counterexample: after one run of the destructor body on an armed
`Always` guard the armed flag is still true, and a second run invokes the
action again: the counter stands at 2 after 2 calls. -/
theorem C9_counterexample_second_run_fires_again :
    (Defer.dtor alwaysTick calmThread).map (fun r => r.1._active) = some true ∧
    ((Defer.dtor alwaysTick calmThread).bind (fun r => Defer.dtor r.1 r.2)).map
      (fun r => observe r.2) = some (2, 2) := by
  constructor <;> rfl

/-- C9, amended: the destructor body writes no member, so whenever it returns
the guard is as it was, armed flag included. A disarmed guard makes no call
however often the body runs. An armed guard holding `f` whose body runs a
second time, with any count `n2` then in force, decides afresh: the second run
invokes `f` exactly when the policy matches `n2 > 0`, whatever the first run
did. -/
theorem C9_dtor_leaves_guard_unchanged {σ : Type} (g : Defer σ) (p : DeferMode)
    (fn : StdFunction σ) (f : σ → σ) (t : Thread σ) (n2 : Nat) :
    (Defer.dtor g t).map Prod.fst = (Defer.dtor g t).map (fun _ => g) ∧
    ((Defer.dtor { _mode := p, _fn := fn, _active := false } t).bind
        (fun r => Defer.dtor r.1 { r.2 with uncaught := n2 }) =
      some ({ _mode := p, _fn := fn, _active := false }, { t with uncaught := n2 })) ∧
    ((Defer.dtor { _mode := p, _fn := StdFunction.target f, _active := true } t).bind
        (fun r => Defer.dtor r.1 { r.2 with uncaught := n2 }) =
      (Defer.dtor { _mode := p, _fn := StdFunction.target f, _active := true } t).bind
        (fun r => some ({ _mode := p, _fn := StdFunction.target f, _active := true },
          if p = DeferMode.Always ∨ (p = DeferMode.OnFailure ∧ n2 > 0) ∨
              (p = DeferMode.OnSuccess ∧ ¬ n2 > 0)
          then invoke f { r.2 with uncaught := n2 } else { r.2 with uncaught := n2 }))) := by
  refine ⟨?_, by simp [Defer.dtor], ?_⟩
  · rcases dtor_trichotomy g t with h | h | ⟨k, _, h⟩ <;> rw [h] <;> rfl
  · cases p <;> by_cases h : t.uncaught > 0 <;> by_cases h2 : n2 > 0 <;>
      simp [Defer.dtor, invoke, h, h2]

/-! ## Construction -/

/-- C10: for every policy `p` and every callable, the constructor returns a
guard whose policy is `p`, whose stored callable is the one given and whose
armed flag is true, and it leaves the thread state, world and trace of calls
included, as it was: an action `f` is stored, not invoked. -/
theorem C10_ctor_arms_without_calling {σ : Type} (p : DeferMode) (fn : StdFunction σ)
    (f : σ → σ) (t : Thread σ) :
    Defer.ctor p fn t = ({ _mode := p, _fn := fn, _active := true }, t) ∧
    (Defer.ctor p (StdFunction.target f) t).1._mode = p ∧
    (Defer.ctor p (StdFunction.target f) t).1._fn = StdFunction.target f ∧
    (Defer.ctor p (StdFunction.target f) t).1._active = true ∧
    (Defer.ctor p (StdFunction.target f) t).2 = t ∧
    (Defer.ctor p (StdFunction.target f) t).2.calls = t.calls ∧
    (Defer.ctor p (StdFunction.target f) t).2.world = t.world :=
  ⟨rfl, rfl, rfl, rfl, rfl, rfl, rfl⟩

/-! ## The builder -/

/-- C11: for every policy `p` and every callable, `MakeDeferObj{p} += fn`
yields exactly what `Defer(p, fn)` yields: a guard with policy `p`, the given
callable and the armed flag set, the thread state untouched. A builder is
determined by its policy (it has no other member), and `MakeDeferObj{}` holds
the policy `Always`. -/
theorem C11_builder_passes_policy_through {σ : Type} (p : DeferMode) (fn : StdFunction σ)
    (b : MakeDeferObj) (t : Thread σ) :
    MakeDeferObj.opAddAssign (MakeDeferObj.mk p) fn t = Defer.ctor p fn t ∧
    MakeDeferObj.opAddAssign (MakeDeferObj.mk p) fn t =
      ({ _mode := p, _fn := fn, _active := true }, t) ∧
    MakeDeferObj.opAddAssign b fn t = Defer.ctor b.mode fn t ∧
    b = MakeDeferObj.mk b.mode ∧
    ({} : MakeDeferObj).mode = DeferMode.Always ∧
    MakeDeferObj.opAddAssign {} fn t = Defer.ctor DeferMode.Always fn t :=
  ⟨rfl, rfl, rfl, rfl, rfl, rfl⟩

/-! ## The exception in flight -/

/-- C12: for every policy, every action `f` and every exception `e` thrown in
a block that declares one guard, the block still completes by throwing `e`
after the destructor has run, with the exception counted as in flight, and
the enclosing handler then runs on the world the destructor left. For an
`Always` guard (by the constructor or by `DEFER`) the action has been invoked
exactly once when the handler runs: the handler sees the world `f` produced. -/
theorem C12_exception_still_propagates {σ ε : Type} (p : DeferMode) (f : σ → σ)
    (body handler : σ → σ) (e : ε) (w : σ) (n : Nat) (cs : List (σ → σ)) :
    ((runBlock { decls := [Defer.ctor p (StdFunction.target f)], body := body,
                 ending := Completion.throws e }
        { world := w, uncaught := n, calls := cs }).map (fun r => (r.2, r.1.uncaught)) =
      some (Completion.throws e, n + 1)) ∧
    ((tryCatch { decls := [Defer.ctor p (StdFunction.target f)], body := body,
                 ending := Completion.throws e } handler
        { world := w, uncaught := n, calls := cs }).map (fun r => (r.world, r.uncaught)) =
      (runBlock { decls := [Defer.ctor p (StdFunction.target f)], body := body,
                  ending := Completion.throws e }
        { world := w, uncaught := n, calls := cs }).map
          (fun r => (handler r.1.world, n))) ∧
    (tryCatch { decls := [Defer.ctor DeferMode.Always (StdFunction.target f)], body := body,
                ending := Completion.throws e } handler
        { world := w, uncaught := n, calls := cs } =
      some { world := handler (f (body w)), uncaught := n, calls := cs ++ [f] }) ∧
    (tryCatch { decls := [DEFER f], body := body, ending := Completion.throws e } handler
        { world := w, uncaught := n, calls := cs } =
      some { world := handler (f (body w)), uncaught := n, calls := cs ++ [f] }) := by
  refine ⟨?_, ?_, ?_, ?_⟩
  · cases p <;>
      simp [runBlock, declare, destroyLocals, Defer.dtor, Defer.ctor, invoke]
  · cases p <;>
      simp [tryCatch, runBlock, declare, destroyLocals, Defer.dtor, Defer.ctor, invoke]
  · simp [tryCatch, runBlock, declare, destroyLocals, Defer.dtor, Defer.ctor, invoke]
  · simp [tryCatch, runBlock, declare, destroyLocals, Defer.dtor, Defer.ctor, invoke, DEFER,
      MakeDeferObj.opAddAssign]

/-! ## Only the state at destruction counts -/

/-- C13: a guard constructed on thread state `t1` is the same object as one
constructed on `t2` (nothing of the state at construction is stored), so on
every common state `t` at destruction their destructors do the same. For two
guards with the same policy and armed flag, whatever their actions, the
destructors run on the same state make the same number of calls. -/
theorem C13_decision_ignores_construction_context {σ : Type} (p : DeferMode) (a : Bool)
    (fn : StdFunction σ) (f1 f2 : σ → σ) (t1 t2 t : Thread σ) :
    (Defer.ctor p fn t1).1 = (Defer.ctor p fn t2).1 ∧
    Defer.dtor (Defer.ctor p fn t1).1 t = Defer.dtor (Defer.ctor p fn t2).1 t ∧
    (Defer.dtor { _mode := p, _fn := StdFunction.target f1, _active := a } t).map
        (fun r => r.2.calls.length) =
      (Defer.dtor { _mode := p, _fn := StdFunction.target f2, _active := a } t).map
        (fun r => r.2.calls.length) := by
  refine ⟨rfl, rfl, ?_⟩
  cases a <;> cases p <;> by_cases h : t.uncaught > 0 <;> simp [Defer.dtor, invoke, h]

/-! ## Two guards in one block -/

/-- C14, counterexample: on a thread with one exception already in flight, a
block that declares two `OnSuccess` guards and is left normally (so both
policies match the way the block is left) invokes neither action: the counter
stays at the 5 the statements set and no call is made, where firing the second
guard and then the first would leave 2 * 5 + 1 after 2 calls. -/
theorem C14_counterexample_on_success_during_unwinding :
    (runBlock twoSuccessBlock unwindingThread).map (fun r => observe r.1) = some (5, 0) ∧
    (runBlock twoSuccessBlock unwindingThread).map (fun r => observe r.1) ≠
      some (tick (twice 5), 2) := by
  constructor
  · rfl
  · decide

/-- C14, amended: in a block that declares guard G1 (policy `p1`, action `f1`)
and then guard G2 (policy `p2`, action `f2`), when both policies match the
uncaught-exception count read at the exit (`Always`, or `OnFailure` with a
positive count, or `OnSuccess` with a zero count; for a block entered with no
exception in flight: `OnFailure` with a thrown exception, `OnSuccess` with a
normal exit), the exit invokes `f2` first and `f1` second, each exactly once:
the trace grows by `f2, f1` and the world is `f1 (f2 _)` of what the
statements left. Two `DEFER` declarations in one block behave so on every
exit and for every count at entry. -/
theorem C14_reverse_order_of_construction {σ ε : Type} (p1 p2 : DeferMode) (f1 f2 : σ → σ)
    (body : σ → σ) (ending : Completion ε) (w : σ) (n : Nat) (cs : List (σ → σ))
    (h1 : p1 = DeferMode.Always ∨ (p1 = DeferMode.OnFailure ∧ countAtExit ending n > 0) ∨
      (p1 = DeferMode.OnSuccess ∧ countAtExit ending n = 0))
    (h2 : p2 = DeferMode.Always ∨ (p2 = DeferMode.OnFailure ∧ countAtExit ending n > 0) ∨
      (p2 = DeferMode.OnSuccess ∧ countAtExit ending n = 0)) :
    runBlock { decls := [Defer.ctor p1 (StdFunction.target f1),
                         Defer.ctor p2 (StdFunction.target f2)],
               body := body, ending := ending }
        { world := w, uncaught := n, calls := cs } =
      some ({ world := f1 (f2 (body w)), uncaught := countAtExit ending n,
              calls := cs ++ [f2, f1] }, ending) ∧
    runBlock { decls := [DEFER f1, DEFER f2], body := body, ending := ending }
        { world := w, uncaught := n, calls := cs } =
      some ({ world := f1 (f2 (body w)), uncaught := countAtExit ending n,
              calls := cs ++ [f2, f1] }, ending) := by
  refine ⟨?_, by
    cases ending <;>
      simp [runBlock, declare, destroyLocals, Defer.dtor, Defer.ctor, invoke, DEFER,
        MakeDeferObj.opAddAssign, countAtExit]⟩
  have key : ∀ (m : Nat) (v : σ),
      (p1 = DeferMode.Always ∨ (p1 = DeferMode.OnFailure ∧ m > 0) ∨
        (p1 = DeferMode.OnSuccess ∧ m = 0)) →
      (p2 = DeferMode.Always ∨ (p2 = DeferMode.OnFailure ∧ m > 0) ∨
        (p2 = DeferMode.OnSuccess ∧ m = 0)) →
      destroyLocals [{ _mode := p1, _fn := StdFunction.target f1, _active := true },
                     { _mode := p2, _fn := StdFunction.target f2, _active := true }]
          { world := v, uncaught := m, calls := cs } =
        some { world := f1 (f2 v), uncaught := m, calls := cs ++ [f2, f1] } := by
    intro m v k1 k2
    rcases k1 with k1 | ⟨k1, hm1⟩ | ⟨k1, hm1⟩ <;> rcases k2 with k2 | ⟨k2, hm2⟩ | ⟨k2, hm2⟩ <;>
      subst k1 <;> subst k2 <;> first
      | omega
      | simp [destroyLocals, Defer.dtor, invoke, *]
  cases ending with
  | normal =>
    have hk := key n (body w) h1 h2
    simp only [runBlock, declare, Defer.ctor]
    rw [hk]
    rfl
  | throws e =>
    have hk := key (n + 1) (body w) h1 h2
    simp only [runBlock, declare, Defer.ctor]
    rw [hk]
    rfl

/-- C14, witness: G1 is an `OnSuccess` guard that adds one, G2 an `Always`
guard that doubles, the block is entered with no exception in flight, sets
the counter to 5 and is left normally: the counter ends at 2 * 5 + 1. -/
theorem C14_reverse_order_witness :
    (DeferMode.OnSuccess = DeferMode.Always ∨
      (DeferMode.OnSuccess = DeferMode.OnFailure ∧
        countAtExit (Completion.normal : Completion Unit) 0 > 0) ∨
      (DeferMode.OnSuccess = DeferMode.OnSuccess ∧
        countAtExit (Completion.normal : Completion Unit) 0 = 0)) ∧
    runBlock { decls := [Defer.ctor DeferMode.OnSuccess (StdFunction.target tick),
                         Defer.ctor DeferMode.Always (StdFunction.target twice)],
               body := fun _ => 5, ending := (Completion.normal : Completion Unit) }
        { world := 0, uncaught := 0, calls := [] } =
      some ({ world := tick (twice 5),
              uncaught := countAtExit (Completion.normal : Completion Unit) 0,
              calls := [] ++ [twice, tick] }, Completion.normal) :=
  ⟨Or.inr (Or.inr ⟨rfl, rfl⟩),
   (C14_reverse_order_of_construction DeferMode.OnSuccess DeferMode.Always tick twice
     (fun _ => 5) Completion.normal 0 0 [] (Or.inr (Or.inr ⟨rfl, rfl⟩)) (Or.inl rfl)).1⟩

/-! ## The policy never changes -/

/-- C15: the destructor body leaves the policy of the guard as it was
(whenever it returns), and a move gives the destination the policy of the
source and leaves the policy field of the source equal to what it was. -/
theorem C15_policy_is_immutable {σ : Type} (g : Defer σ) (residue : StdFunction σ)
    (t : Thread σ) :
    (Defer.dtor g t).map (fun r => r.1._mode) = (Defer.dtor g t).map (fun _ => g._mode) ∧
    (Defer.moveCtor g residue).1._mode = g._mode ∧
    (Defer.moveCtor g residue).2._mode = g._mode := by
  refine ⟨?_, rfl, rfl⟩
  rcases dtor_trichotomy g t with h | h | ⟨k, _, h⟩ <;> rw [h] <;> rfl

/-! ## A family of guards related by moves -/

/-- Overwriting one element of a list changes a count by what the old and the
new element contribute. -/
theorem countP_set_of_getElem? {α : Type} (q : α → Bool) :
    ∀ (l : List α) (i : Nat) (a b : α), l[i]? = some a →
      List.countP q (l.set i b) + (if q a = true then 1 else 0) =
        List.countP q l + (if q b = true then 1 else 0)
  | [], i, a, b, h => by simp at h
  | x :: l, 0, a, b, h => by
      simp at h; subst h
      simp only [List.set_cons_zero, List.countP_cons]; omega
  | x :: l, i + 1, a, b, h => by
      simp at h
      have ih := countP_set_of_getElem? q l i a b h
      simp only [List.set_cons_succ, List.countP_cons]; omega

/-- A move step keeps the number of armed guards of a family. -/
theorem moveStep_countP_armed {σ : Type} (fam : List (Defer σ)) (i : Nat)
    (residue : StdFunction σ) :
    List.countP (fun g => g._active) (moveStep fam i residue) =
      List.countP (fun g => g._active) fam := by
  unfold moveStep
  cases h : fam[i]? with
  | none => rfl
  | some g =>
    have hs := countP_set_of_getElem? (fun g : Defer σ => g._active) fam i g
      (Defer.moveCtor g residue).2 h
    simp only [List.countP_append, List.countP_cons, List.countP_nil]
    simp only [Defer.moveCtor] at hs ⊢
    simp at hs
    omega

/-- An armed guard found in a family after a move step was in the family
before it. -/
theorem mem_of_mem_moveStep_armed {σ : Type} (fam : List (Defer σ)) (i : Nat)
    (residue : StdFunction σ) (x : Defer σ) (hx : x ∈ moveStep fam i residue)
    (ha : x._active = true) : x ∈ fam := by
  unfold moveStep at hx
  cases h : fam[i]? with
  | none => rw [h] at hx; exact hx
  | some g =>
    rw [h] at hx
    rcases List.mem_append.mp hx with hx | hx
    · rcases List.mem_or_eq_of_mem_set hx with hx | hx
      · exact hx
      · rw [hx] at ha
        simp [Defer.moveCtor] at ha
    · have hxg : x = g := by simpa [Defer.moveCtor] using hx
      rw [hxg]
      exact List.getElem?_mem h

/-- A sequence of moves keeps the number of armed guards of a family. -/
theorem moves_countP_armed {σ : Type} (ms : List (Nat × StdFunction σ)) :
    ∀ fam : List (Defer σ),
      List.countP (fun g => g._active) (moves fam ms) =
        List.countP (fun g => g._active) fam := by
  induction ms with
  | nil => intro fam; rfl
  | cons m ms ih =>
    intro fam
    show List.countP _ (moves (moveStep fam m.1 m.2) ms) = _
    rw [ih, moveStep_countP_armed]

/-- An armed guard found in a family after a sequence of moves was in the
family before them. -/
theorem mem_of_mem_moves_armed {σ : Type} (ms : List (Nat × StdFunction σ)) :
    ∀ (fam : List (Defer σ)) (x : Defer σ), x ∈ moves fam ms → x._active = true → x ∈ fam := by
  induction ms with
  | nil => intro fam x hx _; exact hx
  | cons m ms ih =>
    intro fam x hx ha
    exact mem_of_mem_moveStep_armed fam m.1 m.2 x (ih _ x hx ha) ha

/-- Destroying objects none of which is armed makes no call. -/
theorem destroyEach_none_armed {σ : Type} :
    ∀ (order : List (Defer σ × Nat)) (t : Thread σ),
      List.countP (fun g => g._active) (order.map Prod.fst) = 0 →
      ∃ t1, destroyEach order t = some t1 ∧ t1.calls = t.calls
  | [], t, _ => ⟨t, rfl, rfl⟩
  | gn :: rest, t, h => by
    obtain ⟨g, n⟩ := gn
    have hg : g._active = false := by
      cases hga : g._active with
      | false => rfl
      | true => simp [List.countP_cons, hga] at h
    have hrest : List.countP (fun g => g._active) (rest.map Prod.fst) = 0 := by
      simp [List.countP_cons, hg] at h
      simpa using h
    obtain ⟨t1, h1, h2⟩ := destroyEach_none_armed rest { t with uncaught := n } hrest
    refine ⟨t1, ?_, h2⟩
    simp [destroyEach, Defer.dtor, hg, h1]

/-- Destroying objects of which at most one is armed, every armed one being
the guard with policy `p` that holds `f`, makes no call or one call of `f`. -/
theorem destroyEach_one_armed {σ : Type} (p : DeferMode) (f : σ → σ) :
    ∀ (order : List (Defer σ × Nat)) (t : Thread σ),
      List.countP (fun g => g._active) (order.map Prod.fst) ≤ 1 →
      (∀ x ∈ order.map Prod.fst, x._active = true →
        x = { _mode := p, _fn := StdFunction.target f, _active := true }) →
      ∃ t1, destroyEach order t = some t1 ∧
        (t1.calls = t.calls ∨ t1.calls = t.calls ++ [f])
  | [], t, _, _ => ⟨t, rfl, Or.inl rfl⟩
  | gn :: rest, t, h, hall => by
    obtain ⟨g, n⟩ := gn
    cases hga : g._active with
    | false =>
      have hrest : List.countP (fun g => g._active) (rest.map Prod.fst) ≤ 1 := by
        simpa [List.countP_cons, hga] using h
      obtain ⟨t1, h1, h2⟩ := destroyEach_one_armed p f rest { t with uncaught := n } hrest
        (fun x hx => hall x (by simp at hx ⊢; exact Or.inr hx))
      exact ⟨t1, by simp [destroyEach, Defer.dtor, hga, h1], h2⟩
    | true =>
      have hrest : List.countP (fun g => g._active) (rest.map Prod.fst) = 0 := by
        simp [List.countP_cons, hga] at h
        simpa using h
      have hg := hall g (by simp) hga
      subst hg
      by_cases hfire : p = DeferMode.Always ∨ (p = DeferMode.OnFailure ∧ n > 0) ∨
          (p = DeferMode.OnSuccess ∧ ¬ n > 0)
      · obtain ⟨t1, h1, h2⟩ := destroyEach_none_armed rest
          (invoke f { t with uncaught := n }) hrest
        refine ⟨t1, ?_, Or.inr (by rw [h2]; rfl)⟩
        rw [← h1]
        rcases hfire with hp | ⟨hp, hn⟩ | ⟨hp, hn⟩
        · subst hp; simp [destroyEach, Defer.dtor]
        · subst hp; simp [destroyEach, Defer.dtor, hn]
        · subst hp; simp [destroyEach, Defer.dtor, hn]
      · obtain ⟨t1, h1, h2⟩ := destroyEach_none_armed rest { t with uncaught := n } hrest
        refine ⟨t1, ?_, Or.inl h2⟩
        rw [← h1]
        cases p <;> by_cases hn : n > 0 <;> simp [hn] at hfire <;>
          simp [destroyEach, Defer.dtor, hn]

/-- C16: start from one constructed guard with policy `p` holding action `f`
and apply any finite sequence of move constructions, each from any object of
the family (an already moved-from one included). Then at most one object of
the family is armed, and destroying every object of the family once, in any
order and with any uncaught-exception count in force at each destruction,
returns and makes no call or exactly one call of `f`. -/
theorem C16_at_most_one_armed_owner {σ : Type} (p : DeferMode) (f : σ → σ) (t0 t : Thread σ)
    (ms : List (Nat × StdFunction σ)) (order : List (Defer σ × Nat))
    (h : (order.map Prod.fst).Perm
      (moves [(Defer.ctor p (StdFunction.target f) t0).1] ms)) :
    List.countP (fun g => g._active)
        (moves [(Defer.ctor p (StdFunction.target f) t0).1] ms) ≤ 1 ∧
    ∃ t1, destroyEach order t = some t1 ∧
      (t1.calls = t.calls ∨ t1.calls = t.calls ++ [f]) := by
  have hc : List.countP (fun g => g._active)
      (moves [(Defer.ctor p (StdFunction.target f) t0).1] ms) ≤ 1 := by
    rw [moves_countP_armed]
    simp [Defer.ctor]
  refine ⟨hc, destroyEach_one_armed p f order t ?_ ?_⟩
  · rw [List.Perm.countP_eq _ h]
    exact hc
  · intro x hx ha
    have hx1 := mem_of_mem_moves_armed ms _ x (h.mem_iff.mp hx) ha
    simpa [Defer.ctor] using hx1

/-- C16, witness: an `Always` guard holding `tick` is moved three times (the
third time from the original, long moved from) and the four objects are
destroyed last constructed first, under the counts 1, 0, 2, 0. -/
theorem C16_at_most_one_armed_owner_witness :
    (lastFirst.map Prod.fst).Perm
      (moves [(Defer.ctor DeferMode.Always (StdFunction.target tick) calmThread).1]
        threeMoves) ∧
    (List.countP (fun g => g._active)
        (moves [(Defer.ctor DeferMode.Always (StdFunction.target tick) calmThread).1]
          threeMoves) ≤ 1 ∧
      ∃ t1, destroyEach lastFirst calmThread = some t1 ∧
        (t1.calls = calmThread.calls ∨ t1.calls = calmThread.calls ++ [tick])) :=
  have hperm : (lastFirst.map Prod.fst).Perm
      (moves [(Defer.ctor DeferMode.Always (StdFunction.target tick) calmThread).1]
        threeMoves) :=
    List.reverse_perm
      (moves [(Defer.ctor DeferMode.Always (StdFunction.target tick) calmThread).1]
        threeMoves)
  ⟨hperm, C16_at_most_one_armed_owner DeferMode.Always tick calmThread calmThread threeMoves
    lastFirst hperm⟩

/-! ## The three policies compared -/

/-- C17: for every action `f` and every thread state at destruction, of an
armed `OnFailure` guard and an armed `OnSuccess` guard holding `f` exactly one
invokes `f` (the other leaves the thread untouched, and a call is never the
same as no call), and an armed `Always` guard holding `f` invokes it in either
case. -/
theorem C17_policies_are_complementary {σ : Type} (f : σ → σ) (t : Thread σ) :
    ((Defer.dtor { _mode := DeferMode.OnFailure, _fn := StdFunction.target f,
                   _active := true } t =
        some ({ _mode := DeferMode.OnFailure, _fn := StdFunction.target f, _active := true },
          invoke f t) ∧
      Defer.dtor { _mode := DeferMode.OnSuccess, _fn := StdFunction.target f,
                   _active := true } t =
        some ({ _mode := DeferMode.OnSuccess, _fn := StdFunction.target f, _active := true },
          t)) ∨
     (Defer.dtor { _mode := DeferMode.OnFailure, _fn := StdFunction.target f,
                   _active := true } t =
        some ({ _mode := DeferMode.OnFailure, _fn := StdFunction.target f, _active := true },
          t) ∧
      Defer.dtor { _mode := DeferMode.OnSuccess, _fn := StdFunction.target f,
                   _active := true } t =
        some ({ _mode := DeferMode.OnSuccess, _fn := StdFunction.target f, _active := true },
          invoke f t))) ∧
    Defer.dtor { _mode := DeferMode.Always, _fn := StdFunction.target f, _active := true } t =
      some ({ _mode := DeferMode.Always, _fn := StdFunction.target f, _active := true },
        invoke f t) ∧
    invoke f t ≠ t := by
  refine ⟨?_, by simp [Defer.dtor], ?_⟩
  · by_cases h : t.uncaught > 0
    · exact Or.inl (by simp [Defer.dtor, h])
    · exact Or.inr (by simp [Defer.dtor, h])
  · intro h
    have hl := congrArg (fun s => s.calls.length) h
    simp [invoke] at hl

end DeferHpp
